import Mathlib

/-!
Verification of the GameAnno web annotation editor.

The definitions below are a shallow embedding of the editor's core logic:

* the client-side application state and its handlers
  (`handleAnnotationSave`, `handleAnnotationUpdate`, `handleAnnotationDelete`,
  `addToUndoStack`, `handleUndo`, `handleRedo` from `web/client/src/App.js`),
* the legacy-record migration shim (`migrateAnnotationRecord`, from
  `migrateAnnotation` in `App.js`),
* the drag-rectangle normalization of the annotation canvas
  (`handleMouseMove` in `AnnotationCanvas.js`),
* the server's upload and export endpoints (`web/server/src/index.js`).

The theorems settle the specification's claims about id uniqueness,
migration, undo/redo, history bounds, drag normalization, export
atomicity, upload resizing and the dirty flag.
-/

namespace GameAnno

/-! ### Decimal representation toolkit

The client generates record ids as the string `box_` followed by the decimal
representation of a counter.  To reason about distinctness of such ids we
need injectivity of `Nat.repr`, which we derive here from the behaviour of
`Nat.toDigitsCore`. -/

theorem toDigitsCore_append (b : ℕ) :
    ∀ (f n : ℕ) (acc : List Char),
      Nat.toDigitsCore b f n acc = Nat.toDigitsCore b f n [] ++ acc := by
  intro f
  induction f with
  | zero => intro n acc; rfl
  | succ f ih =>
    intro n acc
    simp only [Nat.toDigitsCore]
    by_cases h : n / b = 0
    · simp [h]
    · rw [if_neg h, if_neg h, ih (n / b) (Nat.digitChar (n % b) :: acc),
        ih (n / b) [Nat.digitChar (n % b)]]
      simp

theorem toDigitsCore_fuel (b : ℕ) (hb : 2 ≤ b) :
    ∀ (n f f' : ℕ), n < f → n < f' →
      Nat.toDigitsCore b f n [] = Nat.toDigitsCore b f' n [] := by
  intro n
  induction n using Nat.strong_induction_on with
  | _ n ih =>
    intro f f' hf hf'
    cases f with
    | zero => omega
    | succ f =>
      cases f' with
      | zero => omega
      | succ f' =>
        simp only [Nat.toDigitsCore]
        by_cases h : n / b = 0
        · simp [h]
        · rw [if_neg h, if_neg h, toDigitsCore_append b f, toDigitsCore_append b f']
          have hn : 0 < n := by
            rcases Nat.eq_zero_or_pos n with h0 | h0
            · exact absurd (by simp [h0]) h
            · exact h0
          have hd : n / b < n := Nat.div_lt_self hn (by omega)
          rw [ih (n / b) hd f f' (by omega) (by omega)]

theorem toDigits_small (n : ℕ) (hn : n < 10) :
    Nat.toDigits 10 n = [Nat.digitChar n] := by
  unfold Nat.toDigits
  simp only [Nat.toDigitsCore]
  rw [if_pos (Nat.div_eq_of_lt hn), Nat.mod_eq_of_lt hn]

theorem toDigits_step (n : ℕ) (hn : 10 ≤ n) :
    Nat.toDigits 10 n = Nat.toDigits 10 (n / 10) ++ [Nat.digitChar (n % 10)] := by
  have h : ¬ n / 10 = 0 := by
    intro h0
    have h1 : 10 / 10 ≤ n / 10 := Nat.div_le_div_right hn
    simp [h0] at h1
  have hd : n / 10 < n := Nat.div_lt_self (by omega) (by norm_num)
  conv_lhs => rw [Nat.toDigits]
  simp only [Nat.toDigitsCore]
  rw [if_neg h, toDigitsCore_append 10 n (n / 10),
    toDigitsCore_fuel 10 (by norm_num) (n / 10) n (n / 10 + 1) hd (Nat.lt_succ_self _)]
  rfl

theorem digitChar_inj_lt : ∀ a < 10, ∀ b < 10,
    Nat.digitChar a = Nat.digitChar b → a = b := by decide

theorem toDigits_ne_nil (n : ℕ) : Nat.toDigits 10 n ≠ [] := by
  by_cases h : n < 10
  · rw [toDigits_small n h]; simp
  · rw [toDigits_step n (by omega)]; simp

theorem toDigits_injective :
    ∀ n m : ℕ, Nat.toDigits 10 n = Nat.toDigits 10 m → n = m := by
  intro n
  induction n using Nat.strong_induction_on with
  | _ n ih =>
    intro m h
    by_cases hn : n < 10 <;> by_cases hm : m < 10
    · rw [toDigits_small n hn, toDigits_small m hm] at h
      exact digitChar_inj_lt n hn m hm (by injection h)
    · rw [toDigits_small n hn, toDigits_step m (by omega)] at h
      have hlen := congrArg List.length h
      simp only [List.length_cons, List.length_nil, List.length_append] at hlen
      have := List.length_pos.mpr (toDigits_ne_nil (m / 10))
      omega
    · rw [toDigits_step n (by omega), toDigits_small m hm] at h
      have hlen := congrArg List.length h
      simp only [List.length_cons, List.length_nil, List.length_append] at hlen
      have := List.length_pos.mpr (toDigits_ne_nil (n / 10))
      omega
    · rw [toDigits_step n (by omega), toDigits_step m (by omega)] at h
      obtain ⟨h1, h2⟩ := List.append_inj' h (by simp)
      have hdiv : n / 10 = m / 10 :=
        ih (n / 10) (Nat.div_lt_self (by omega) (by norm_num)) (m / 10) h1
      have hmod : n % 10 = m % 10 :=
        digitChar_inj_lt (n % 10) (Nat.mod_lt _ (by norm_num)) (m % 10)
          (Nat.mod_lt _ (by norm_num)) (by injection h2)
      omega

theorem Nat_repr_injective : Function.Injective Nat.repr := by
  intro n m h
  exact toDigits_injective n m (List.asString_inj.mp h)

/-! ### Data model

`AnnotationRecord` is the in-memory shape built by `handleAnnotationSave` in
`web/client/src/App.js`; coordinates are rationals standing for the
JavaScript numbers `[x, y, x + width, y + height]`. -/

structure AnnotationRecord where
  bounding_box_id : String
  interactionTypes : List String
  categories : List String
  is_interactive : Bool
  notes : String
  coordinates : List ℚ
deriving DecidableEq, Repr

/-- The draft rectangle produced by the canvas drag gesture. -/
structure DraftBox where
  x : ℚ
  y : ℚ
  width : ℚ
  height : ℚ
deriving DecidableEq, Repr

/-- The metadata object passed by `AnnotationDialog` to `handleAnnotationSave`;
each field may be absent, and `App.js` fills the defaults with `||`. -/
structure Metadata where
  interactionTypes : Option (List String) := none
  categories : Option (List String) := none
  is_interactive : Option Bool := none
  notes : Option String := none
deriving DecidableEq, Repr

/-- The pieces of the React component state of `App.js` that the annotation
store and history claims are about: `annotations`, `undoStack`, `redoStack`
and `hasUnsavedChanges`. -/
structure AppState where
  annotations : List AnnotationRecord
  undoStack : List (List AnnotationRecord)
  redoStack : List (List AnnotationRecord)
  hasUnsavedChanges : Bool
deriving DecidableEq, Repr

def MAX_STACK_SIZE : ℕ := 50

/-- The state on image load: empty store, empty history, clean session. -/
def init : AppState :=
  { annotations := [], undoStack := [], redoStack := [], hasUnsavedChanges := false }

/-- JavaScript `arr.slice(-n)`: the suffix of the last `n` elements
(the whole array when it is shorter than `n`). -/
def sliceLast (n : ℕ) (l : List α) : List α := l.drop (l.length - n)

/-- `[...stack, snapshot].slice(-MAX_STACK_SIZE)`, the push-with-truncation
used on both history stacks in `App.js`. -/
def pushTrunc (stack : List (List AnnotationRecord))
    (snapshot : List AnnotationRecord) : List (List AnnotationRecord) :=
  sliceLast MAX_STACK_SIZE (stack ++ [snapshot])

/-- `addToUndoStack` from `App.js`: push the pre-mutation snapshot onto the
undo stack (keeping only the last `MAX_STACK_SIZE` items) and clear the redo
stack. -/
def addToUndoStack (s : AppState) (prevAnnotations : List AnnotationRecord) :
    AppState :=
  { s with undoStack := pushTrunc s.undoStack prevAnnotations, redoStack := [] }

/-- `handleAnnotationSave` from `App.js`: no-op when no draft box is pending;
otherwise records the pre-mutation snapshot and appends a new record whose id
is the string `box_` followed by the store length plus one. -/
def handleAnnotationSave (metadata : Metadata) (currentBox : Option DraftBox)
    (s : AppState) : AppState :=
  match currentBox with
  | none => s
  | some box =>
    let s1 := addToUndoStack s s.annotations
    let newRecord : AnnotationRecord :=
      { bounding_box_id := "box_" ++ Nat.repr (s1.annotations.length + 1)
        interactionTypes := metadata.interactionTypes.getD []
        categories := metadata.categories.getD []
        is_interactive := metadata.is_interactive.getD false
        notes := metadata.notes.getD ""
        coordinates := [box.x, box.y, box.x + box.width, box.y + box.height] }
    { s1 with annotations := s1.annotations ++ [newRecord],
              hasUnsavedChanges := true }

/-- `handleAnnotationUpdate` from `App.js`: replace the record with the
matching id (the `|| []` defaults on the two list fields are identities in
this typed model, where the fields are always present). -/
def handleAnnotationUpdate (updated : AnnotationRecord) (s : AppState) :
    AppState :=
  let s1 := addToUndoStack s s.annotations
  { s1 with
    annotations := s1.annotations.map fun ann =>
      if ann.bounding_box_id = updated.bounding_box_id then updated else ann
    hasUnsavedChanges := true }

/-- `handleAnnotationDelete` from `App.js`: drop every record carrying the
target's id (the cleared selection is not part of this model). -/
def handleAnnotationDelete (target : AnnotationRecord) (s : AppState) :
    AppState :=
  let s1 := addToUndoStack s s.annotations
  { s1 with
    annotations := s1.annotations.filter fun ann =>
      ann.bounding_box_id != target.bounding_box_id
    hasUnsavedChanges := true }

/-- `handleUndo` from `App.js`: no-op on an empty undo stack; otherwise push
the current store onto the redo stack (truncated), install the popped
snapshot and mark the session dirty. -/
def handleUndo (s : AppState) : AppState :=
  match s.undoStack.getLast? with
  | none => s
  | some prevState =>
    { annotations := prevState
      undoStack := s.undoStack.dropLast
      redoStack := pushTrunc s.redoStack s.annotations
      hasUnsavedChanges := true }

/-- `handleRedo` from `App.js`, symmetric to `handleUndo`. -/
def handleRedo (s : AppState) : AppState :=
  match s.redoStack.getLast? with
  | none => s
  | some nextState =>
    { annotations := nextState
      undoStack := pushTrunc s.undoStack s.annotations
      redoStack := s.redoStack.dropLast
      hasUnsavedChanges := true }

/-- The three store mutations of the client. -/
inductive Mut where
  | add (metadata : Metadata) (box : DraftBox)
  | update (updated : AnnotationRecord)
  | delete (target : AnnotationRecord)
deriving Repr

def applyMut : Mut → AppState → AppState
  | Mut.add metadata box, s => handleAnnotationSave metadata (some box) s
  | Mut.update updated, s => handleAnnotationUpdate updated s
  | Mut.delete target, s => handleAnnotationDelete target s

/-- Any event the store and history react to. -/
inductive Op where
  | mutate (m : Mut)
  | undo
  | redo
deriving Repr

def applyOp : Op → AppState → AppState
  | Op.mutate m, s => applyMut m s
  | Op.undo, s => handleUndo s
  | Op.redo, s => handleRedo s

def run (ops : List Op) (s : AppState) : AppState :=
  ops.foldl (fun st op => applyOp op st) s

/-! ### History stack helper lemmas -/

theorem pushTrunc_eq (stack : List (List AnnotationRecord))
    (snapshot : List AnnotationRecord) :
    pushTrunc stack snapshot =
      stack.drop (stack.length + 1 - MAX_STACK_SIZE) ++ [snapshot] := by
  have h : stack.length + 1 - MAX_STACK_SIZE ≤ stack.length := by
    simp only [MAX_STACK_SIZE]; omega
  simp only [pushTrunc, sliceLast, List.length_append, List.length_cons,
    List.length_nil]
  rw [List.drop_append_of_le_length h]

theorem length_pushTrunc_le (stack : List (List AnnotationRecord))
    (snapshot : List AnnotationRecord) :
    (pushTrunc stack snapshot).length ≤ MAX_STACK_SIZE := by
  rw [pushTrunc_eq]
  simp only [List.length_append, List.length_drop, List.length_cons,
    List.length_nil, MAX_STACK_SIZE]
  omega

theorem getLast?_pushTrunc (stack : List (List AnnotationRecord))
    (snapshot : List AnnotationRecord) :
    (pushTrunc stack snapshot).getLast? = some snapshot := by
  rw [pushTrunc_eq]
  exact List.getLast?_concat _

theorem dropLast_pushTrunc (stack : List (List AnnotationRecord))
    (snapshot : List AnnotationRecord) :
    (pushTrunc stack snapshot).dropLast =
      stack.drop (stack.length + 1 - MAX_STACK_SIZE) := by
  rw [pushTrunc_eq]
  exact List.dropLast_concat

/-- Every mutation routes through `addToUndoStack`: the undo stack gains the
pre-mutation snapshot and the redo stack is cleared. -/
theorem applyMut_stacks (m : Mut) (s : AppState) :
    (applyMut m s).undoStack = pushTrunc s.undoStack s.annotations ∧
      (applyMut m s).redoStack = [] := by
  cases m <;>
    simp [applyMut, handleAnnotationSave, handleAnnotationUpdate,
      handleAnnotationDelete, addToUndoStack]

theorem applyMut_annotations (m : Mut) (s : AppState) :
    (applyMut m s).annotations =
      match m with
      | Mut.add metadata box =>
          s.annotations ++
            [{ bounding_box_id := "box_" ++ Nat.repr (s.annotations.length + 1)
               interactionTypes := metadata.interactionTypes.getD []
               categories := metadata.categories.getD []
               is_interactive := metadata.is_interactive.getD false
               notes := metadata.notes.getD ""
               coordinates := [box.x, box.y, box.x + box.width,
                 box.y + box.height] }]
      | Mut.update updated =>
          s.annotations.map fun ann =>
            if ann.bounding_box_id = updated.bounding_box_id then updated
            else ann
      | Mut.delete target =>
          s.annotations.filter fun ann =>
            ann.bounding_box_id != target.bounding_box_id := by
  cases m <;>
    simp [applyMut, handleAnnotationSave, handleAnnotationUpdate,
      handleAnnotationDelete, addToUndoStack]

/-! ### Legacy-record migration

A persisted JSON record may carry any subset of its fields, including the
legacy singular `interaction_type` and `category`; an `Option` field set to
`none` models an absent (or `undefined`) JavaScript property. -/

structure RawAnnotationRecord where
  bounding_box_id : Option String := none
  interactionTypes : Option (List String) := none
  categories : Option (List String) := none
  is_interactive : Option Bool := none
  notes : Option String := none
  coordinates : Option (List ℚ) := none
  interaction_type : Option (List String) := none
  category : Option String := none
deriving DecidableEq, Repr

/-- `migrateAnnotation` from `App.js`.  The JavaScript expression
`annotation.interaction_type || annotation.interactionTypes || []` picks the
first present field (an array is truthy even when empty); `categories` is
`annotation.categories || []`; both legacy fields are then set to
`undefined`. -/
def migrateAnnotationRecord (a : RawAnnotationRecord) : RawAnnotationRecord :=
  { a with
    interactionTypes := some
      (match a.interaction_type with
       | some v => v
       | none =>
         match a.interactionTypes with
         | some v => v
         | none => [])
    categories := some
      (match a.categories with
       | some v => v
       | none => [])
    interaction_type := none
    category := none }

/-! ### Canvas drag normalization -/

/-- The draft rectangle recomputed by `handleMouseMove` in
`AnnotationCanvas.js` from the drag start point and the current pointer
position (both already divided by the display scale, hence in image
space). -/
def handleMouseMoveBox (startPoint pos : ℚ × ℚ) : DraftBox :=
  { x := min pos.1 startPoint.1
    y := min pos.2 startPoint.2
    width := |pos.1 - startPoint.1|
    height := |pos.2 - startPoint.2| }

/-! ### Server endpoints (`web/server/src/index.js`) -/

/-- The JSON body answered by `POST /api/upload`. -/
structure UploadResponse where
  filename : String
  width : ℕ
  height : ℕ
deriving DecidableEq, Repr

/-- The image file left in the `uploads` directory by the upload endpoint. -/
structure StoredImage where
  filename : String
  width : ℕ
  height : ℕ
deriving DecidableEq, Repr

structure UploadOutcome where
  response : UploadResponse
  stored : StoredImage
deriving DecidableEq, Repr

/-- Models the `sharp` resize call with `fit: inside` and
`withoutEnlargement: true` (the library is external to the repository): the
image is scaled by the largest factor at most `1` that makes it fit within
`1280 × 720`, preserving the aspect ratio. -/
def fitInside (w h : ℕ) : ℕ × ℕ :=
  let r : ℚ := min (min ((1280 : ℚ) / w) ((720 : ℚ) / h)) 1
  ((Int.floor ((w : ℚ) * r)).toNat, (Int.floor ((h : ℚ) * r)).toNat)

/-- `POST /api/upload`: `storedName` is the multer-generated filename and
`w × h` the uploaded image's native size.  When the image exceeds the
`1280 × 720` box it is resized into `resized-<name>` and the original is
deleted; the JSON response always reports `metadata.width` and
`metadata.height`, the dimensions read before any resizing. -/
def uploadHandler (storedName : String) (w h : ℕ) : UploadOutcome :=
  if 720 < h ∨ 1280 < w then
    let dims := fitInside w h
    { response := { filename := "resized-" ++ storedName, width := w, height := h }
      stored := { filename := "resized-" ++ storedName, width := dims.1,
                  height := dims.2 } }
  else
    { response := { filename := storedName, width := w, height := h }
      stored := { filename := storedName, width := w, height := h } }

/-- JavaScript `sceneId.replace(/[^a-zA-Z0-9-_]/g, '')`. -/
def sanitizeSceneId (s : String) : String :=
  (s.data.filter fun c => c.isAlphanum || c == '-' || c == '_').asString

/-- JavaScript `imageData.filename.replace(/[^a-zA-Z0-9-_.]/g, '')`. -/
def sanitizeFilename (s : String) : String :=
  (s.data.filter fun c => c.isAlphanum || c == '-' || c == '_' || c == '.').asString

/-- Node's `path.extname`: the suffix starting at the last dot, or the empty
string when there is no dot. -/
def extname (s : String) : String :=
  if s.data.contains '.' then
    ('.' :: (s.data.reverse.takeWhile fun c => c != '.').reverse).asString
  else ""

/-- The validated body of `POST /api/export`. -/
structure ExportRequest where
  annotations : List RawAnnotationRecord
  filename : String
  width : ℕ
  height : ℕ
  sceneId : String
deriving DecidableEq, Repr

/-- The metadata document written by the export endpoint. -/
structure ExportMetadataDoc where
  scene_id : String
  timestamp : String
  image_width : ℕ
  image_height : ℕ
  annotations : List RawAnnotationRecord
deriving DecidableEq, Repr

/-- What the export request left behind: the HTTP response (`ok` carries
`exportPath`, `error` the failure message) and the files now present under
the export directory. -/
structure ExportOutcome where
  response : Except String String
  metadataDoc : ExportMetadataDoc
  filesWritten : List String
deriving Repr

/-- `POST /api/export`.  `uploadsDir` lists the filenames present in the
`uploads` directory.  The handler creates the export directory and writes the
metadata JSON file first, and only then checks that the source image exists;
on a missing source it throws, so the metadata file written before the check
stays on disk. -/
def exportHandler (uploadsDir : List String) (req : ExportRequest)
    (timestamp : String) : ExportOutcome :=
  let exportDir := "annotations/" ++ timestamp
  let sanitizedSceneId := sanitizeSceneId req.sceneId
  let sanitizedFilename := sanitizeFilename req.filename
  let metadataDoc : ExportMetadataDoc :=
    { scene_id := sanitizedSceneId
      timestamp := timestamp
      image_width := req.width
      image_height := req.height
      annotations := req.annotations }
  let metadataPath := exportDir ++ "/" ++ sanitizedSceneId ++ ".json"
  let filesWritten := [metadataPath]
  if uploadsDir.contains sanitizedFilename then
    { response := Except.ok exportDir
      metadataDoc := metadataDoc
      filesWritten := filesWritten ++
        [exportDir ++ "/" ++ sanitizedSceneId ++ "_original" ++
          extname sanitizedFilename] }
  else
    { response := Except.error "Source file not found"
      metadataDoc := metadataDoc
      filesWritten := filesWritten }

/-! ### Shared concrete inputs -/

/-- Metadata with every optional field absent. -/
def meta0 : Metadata := {}

def box0 : DraftBox := { x := 0, y := 0, width := 10, height := 10 }

/-- The record `handleAnnotationSave meta0 (some box0)` creates in the empty
store. -/
def rec1 : AnnotationRecord :=
  { bounding_box_id := "box_1", interactionTypes := [], categories := []
    is_interactive := false, notes := "", coordinates := [0, 0, 10, 10] }

/-- The legacy persisted record of the specification's migration example. -/
def legacyDoorRecord : RawAnnotationRecord :=
  { interaction_type := some ["open"], category := some "Door" }

/-! ### Claim theorems -/

/-- C2, counterexample: migrating the legacy record
`interaction_type = ["open"], category = "Door"` does not produce
`categories = ["Door"]` — the singular `category` value is discarded, since
`migrateAnnotation` reads only the plural `categories` field. -/
theorem migrate_legacy_door_not_door :
    ( migrateAnnotationRecord legacyDoorRecord).categories ≠ some ["Door"] := by
  decide

/-- C2, amended: migrating the legacy record yields
`interactionTypes = ["open"]` and an empty `categories` list, with neither
legacy field remaining, and the migration is idempotent on every record. -/
theorem migrate_legacy_door_and_idempotent :
    migrateAnnotationRecord legacyDoorRecord =
      { interactionTypes := some ["open"], categories := some []
        interaction_type := none, category := none } ∧
      ∀ a : RawAnnotationRecord,
        migrateAnnotationRecord ( migrateAnnotationRecord a) =
          migrateAnnotationRecord a := by
  exact ⟨by decide, fun a => rfl⟩

/-- C3: undoing immediately after any single mutation (add, update or
delete) restores exactly the pre-mutation record list. -/
theorem undo_after_mutation_restores (m : Mut) (s : AppState) :
    (handleUndo (applyMut m s)).annotations = s.annotations := by
  have h : (applyMut m s).undoStack.getLast? = some s.annotations := by
    rw [(applyMut_stacks m s).1, getLast?_pushTrunc]
  simp [handleUndo, h]

/-- C4: undo followed by redo after any single mutation restores exactly the
post-mutation record list. -/
theorem undo_redo_after_mutation_restores (m : Mut) (s : AppState) :
    (handleRedo (handleUndo (applyMut m s))).annotations =
      (applyMut m s).annotations := by
  have h1 : (applyMut m s).undoStack.getLast? = some s.annotations := by
    rw [(applyMut_stacks m s).1, getLast?_pushTrunc]
  have h2 : handleUndo (applyMut m s) =
      { annotations := s.annotations
        undoStack := (applyMut m s).undoStack.dropLast
        redoStack := pushTrunc (applyMut m s).redoStack (applyMut m s).annotations
        hasUnsavedChanges := true } := by
    simp [handleUndo, h1]
  rw [h2]
  simp [handleRedo, getLast?_pushTrunc]

/-- C6: every mutation pushes the pre-mutation snapshot onto the undo stack
and clears the redo stack; in particular the concrete sequence add, undo,
add ends with an empty redo stack. -/
theorem mutation_pushes_undo_clears_redo :
    (∀ (m : Mut) (s : AppState),
        (applyMut m s).undoStack = pushTrunc s.undoStack s.annotations ∧
          (applyMut m s).redoStack = []) ∧
      (run [Op.mutate (Mut.add meta0 box0), Op.undo,
        Op.mutate (Mut.add meta0 box0)] init).redoStack = [] := by
  exact ⟨fun m s => applyMut_stacks m s, rfl⟩

/-- C7: the draft rectangle of a drag from `p` to `q` is
`(min q.x p.x, min q.y p.y, |q.x - p.x|, |q.y - p.y|)`; its width and height
are nonnegative and exchanging the two points yields the same rectangle. -/
theorem drag_box_normalized (p q : ℚ × ℚ) :
    handleMouseMoveBox p q =
        { x := min q.1 p.1, y := min q.2 p.2
          width := |q.1 - p.1|, height := |q.2 - p.2| } ∧
      0 ≤ (handleMouseMoveBox p q).width ∧
      0 ≤ (handleMouseMoveBox p q).height ∧
      handleMouseMoveBox p q = handleMouseMoveBox q p := by
  refine ⟨rfl, abs_nonneg _, abs_nonneg _, ?_⟩
  simp [handleMouseMoveBox, min_comm, abs_sub_comm]

/-- C10: undo with a non-empty undo stack and redo with a non-empty redo
stack both set the unsaved-changes flag. -/
theorem undo_redo_set_dirty (s : AppState) :
    (s.undoStack ≠ [] → (handleUndo s).hasUnsavedChanges = true) ∧
      (s.redoStack ≠ [] → (handleRedo s).hasUnsavedChanges = true) := by
  constructor
  · intro h
    cases hl : s.undoStack.getLast? with
    | none => exact absurd (List.getLast?_eq_none_iff.mp hl) h
    | some v => simp [handleUndo, hl]
  · intro h
    cases hl : s.redoStack.getLast? with
    | none => exact absurd (List.getLast?_eq_none_iff.mp hl) h
    | some v => simp [handleRedo, hl]

/-- Witness for `undo_redo_set_dirty` at a concrete state with non-empty
stacks. -/
theorem undo_redo_set_dirty_witness :
    (handleUndo
          { annotations := [], undoStack := [[rec1]], redoStack := [[]]
            hasUnsavedChanges := false }).hasUnsavedChanges = true ∧
      (handleRedo
          { annotations := [], undoStack := [[rec1]], redoStack := [[]]
            hasUnsavedChanges := false }).hasUnsavedChanges = true :=
  ⟨(undo_redo_set_dirty _).1 (by decide), (undo_redo_set_dirty _).2 (by decide)⟩

/-! ### History bound (C5) -/

theorem applyOp_stack_lengths (op : Op) (s : AppState)
    (h1 : s.undoStack.length ≤ MAX_STACK_SIZE)
    (h2 : s.redoStack.length ≤ MAX_STACK_SIZE) :
    (applyOp op s).undoStack.length ≤ MAX_STACK_SIZE ∧
      (applyOp op s).redoStack.length ≤ MAX_STACK_SIZE := by
  cases op with
  | mutate m =>
    obtain ⟨hu, hr⟩ := applyMut_stacks m s
    simp only [applyOp]
    rw [hu, hr]
    exact ⟨length_pushTrunc_le _ _, by simp⟩
  | undo =>
    cases hl : s.undoStack.getLast? with
    | none =>
      simp only [applyOp, handleUndo, hl]
      exact ⟨h1, h2⟩
    | some v =>
      simp only [applyOp, handleUndo, hl]
      refine ⟨?_, length_pushTrunc_le _ _⟩
      rw [List.length_dropLast]
      omega
  | redo =>
    cases hl : s.redoStack.getLast? with
    | none =>
      simp only [applyOp, handleRedo, hl]
      exact ⟨h1, h2⟩
    | some v =>
      simp only [applyOp, handleRedo, hl]
      refine ⟨length_pushTrunc_le _ _, ?_⟩
      rw [List.length_dropLast]
      omega

theorem run_stack_lengths (ops : List Op) :
    ∀ s : AppState,
      s.undoStack.length ≤ MAX_STACK_SIZE →
      s.redoStack.length ≤ MAX_STACK_SIZE →
      (run ops s).undoStack.length ≤ MAX_STACK_SIZE ∧
        (run ops s).redoStack.length ≤ MAX_STACK_SIZE := by
  induction ops with
  | nil => intro s h1 h2; exact ⟨h1, h2⟩
  | cons op rest ih =>
    intro s h1 h2
    have step := applyOp_stack_lengths op s h1 h2
    simpa [run, List.foldl_cons] using ih (applyOp op s) step.1 step.2

/-- C5: over every sequence of mutation/undo/redo events from a fresh image
load, neither history stack ever exceeds 50 entries, and a push onto a stack
already holding 50 drops the oldest entry, keeping the 50 most recent. -/
theorem history_stacks_bounded_fifo :
    (∀ ops : List Op,
        (run ops init).undoStack.length ≤ MAX_STACK_SIZE ∧
          (run ops init).redoStack.length ≤ MAX_STACK_SIZE) ∧
      ∀ (stack : List (List AnnotationRecord))
        (snapshot : List AnnotationRecord),
        stack.length = MAX_STACK_SIZE →
        pushTrunc stack snapshot = stack.tail ++ [snapshot] := by
  constructor
  · intro ops
    exact run_stack_lengths ops init (by simp [init]) (by simp [init])
  · intro stack snapshot h
    rw [pushTrunc_eq, h]
    norm_num [MAX_STACK_SIZE, List.drop_one]

/-- Witness for `history_stacks_bounded_fifo` on a concrete full stack. -/
theorem history_stacks_bounded_fifo_witness :
    pushTrunc (List.replicate 50 [rec1]) [] =
      (List.replicate 50 [rec1]).tail ++ [[]] :=
  history_stacks_bounded_fifo.2 _ _ (by simp [MAX_STACK_SIZE])

/-! ### Id generation (C1) -/

/-- C1, counterexample: the id counter is re-seeded from the store length on
every save, so after add, add, delete of `box_1`, add, the store holds two
records both named `box_2` — ids are not pairwise distinct in a state
reachable by add and delete operations. -/
theorem duplicate_id_after_delete :
    ((run [Op.mutate (Mut.add meta0 box0), Op.mutate (Mut.add meta0 box0),
          Op.mutate (Mut.delete rec1), Op.mutate (Mut.add meta0 box0)] init).annotations.map
        fun r => r.bounding_box_id) = ["box_2", "box_2"] ∧
      ¬ ((run [Op.mutate (Mut.add meta0 box0), Op.mutate (Mut.add meta0 box0),
          Op.mutate (Mut.delete rec1), Op.mutate (Mut.add meta0 box0)] init).annotations.map
        fun r => r.bounding_box_id).Nodup := by
  exact ⟨by decide, by decide⟩

theorem add_id_injective :
    Function.Injective fun i : ℕ => "box_" ++ Nat.repr (i + 1) := by
  intro i j h
  have hd := congrArg String.data h
  simp only [String.data_append] at hd
  have hr : Nat.repr (i + 1) = Nat.repr (j + 1) :=
    String.ext (List.append_cancel_left hd)
  have := Nat_repr_injective hr
  omega

theorem add_preserves_id_shape (metadata : Metadata) (box : DraftBox)
    (s : AppState)
    (h : s.annotations.map (fun r => r.bounding_box_id) =
      (List.range s.annotations.length).map
        fun i => "box_" ++ Nat.repr (i + 1)) :
    (handleAnnotationSave metadata (some box) s).annotations.map
        (fun r => r.bounding_box_id) =
      (List.range
          (handleAnnotationSave metadata (some box) s).annotations.length).map
        fun i => "box_" ++ Nat.repr (i + 1) := by
  simp only [handleAnnotationSave, addToUndoStack, List.map_append,
    List.length_append, List.length_cons, List.length_nil, List.map_cons,
    List.map_nil]
  rw [h, List.range_succ]
  simp

theorem run_addOps (adds : List (Metadata × DraftBox)) :
    ∀ s : AppState,
      run (adds.map fun p => Op.mutate (Mut.add p.1 p.2)) s =
        adds.foldl (fun st p => handleAnnotationSave p.1 (some p.2) st) s := by
  induction adds with
  | nil => intro s; rfl
  | cons p rest ih =>
    intro s
    simp only [List.map_cons, run, List.foldl_cons, applyOp, applyMut]
    exact ih _

theorem addRun_ids_shape (adds : List (Metadata × DraftBox)) :
    ∀ s : AppState,
      s.annotations.map (fun r => r.bounding_box_id) =
        (List.range s.annotations.length).map
          (fun i => "box_" ++ Nat.repr (i + 1)) →
      ((adds.foldl (fun st p => handleAnnotationSave p.1 (some p.2) st)
          s).annotations.map (fun r => r.bounding_box_id)) =
        (List.range
            (adds.foldl (fun st p => handleAnnotationSave p.1 (some p.2) st)
              s).annotations.length).map
          fun i => "box_" ++ Nat.repr (i + 1) := by
  induction adds with
  | nil => intro s h; simpa using h
  | cons p rest ih =>
    intro s h
    simp only [List.foldl_cons]
    exact ih _ (add_preserves_id_shape p.1 p.2 s h)

/-- C1, amended: in every state reachable from the empty store by add
operations alone the record ids are pairwise distinct, and the id a save
assigns is the string `box_` followed by the pre-save store length plus one;
after a deletion that counter re-seeds from the shrunken length, so an id of
a live record can be reassigned (see `duplicate_id_after_delete`). -/
theorem add_only_ids_distinct :
    (∀ adds : List (Metadata × DraftBox),
        ((run (adds.map fun p => Op.mutate (Mut.add p.1 p.2)) init).annotations.map
          fun r => r.bounding_box_id).Nodup) ∧
      ∀ (metadata : Metadata) (box : DraftBox) (s : AppState),
        ((handleAnnotationSave metadata (some box) s).annotations.map
            fun r => r.bounding_box_id).getLast? =
          some ("box_" ++ Nat.repr (s.annotations.length + 1)) := by
  constructor
  · intro adds
    rw [run_addOps adds init, addRun_ids_shape adds init (by simp [init])]
    exact List.Nodup.map add_id_injective (List.nodup_range _)
  · intro metadata box s
    simp [handleAnnotationSave, addToUndoStack, List.getLast?_concat]

/-! ### Export endpoint (C8) -/

def exportReq0 : ExportRequest :=
  { annotations := [], filename := "img.png", width := 800, height := 600,
    sceneId := "scene1" }

/-- C8, counterexample: exporting while the source image is missing from the
uploads directory fails, but the metadata JSON file has already been written
into the export directory — the export is not atomic and an artifact is left
behind. -/
theorem export_missing_source_partial_output :
    (exportHandler [] exportReq0 "ts").response =
        Except.error "Source file not found" ∧
      (exportHandler [] exportReq0 "ts").filesWritten =
        ["annotations/ts/scene1.json"] ∧
      (exportHandler [] exportReq0 "ts").filesWritten ≠ [] := by
  refine ⟨rfl, by decide, by decide⟩

/-- C8, amended: when the source image is missing the export responds with
an error and writes no image artifact, but the metadata document written
before the existence check remains in the export directory. -/
theorem export_missing_source_error (uploadsDir : List String)
    (req : ExportRequest) (timestamp : String)
    (h : sanitizeFilename req.filename ∉ uploadsDir) :
    (exportHandler uploadsDir req timestamp).response =
        Except.error "Source file not found" ∧
      (exportHandler uploadsDir req timestamp).filesWritten =
        ["annotations/" ++ timestamp ++ "/" ++ sanitizeSceneId req.sceneId ++
          ".json"] := by
  simp [exportHandler, h]

/-- Witness for `export_missing_source_error` with an empty uploads
directory. -/
theorem export_missing_source_error_witness :
    (exportHandler [] exportReq0 "tstamp").response =
        Except.error "Source file not found" ∧
      (exportHandler [] exportReq0 "tstamp").filesWritten =
        ["annotations/" ++ "tstamp" ++ "/" ++ sanitizeSceneId exportReq0.sceneId ++
          ".json"] :=
  export_missing_source_error [] exportReq0 "tstamp" (by simp)

/-! ### Upload endpoint (C9) -/

/-- C9, counterexample: a 2560 × 1440 upload is stored resized to
1280 × 720, yet the response reports the original dimensions 2560 × 1440,
not the dimensions of the stored image. -/
theorem upload_reports_original_dims :
    (uploadHandler "file1.png" 2560 1440).response.width = 2560 ∧
      (uploadHandler "file1.png" 2560 1440).response.height = 1440 ∧
      (uploadHandler "file1.png" 2560 1440).stored.width = 1280 ∧
      (uploadHandler "file1.png" 2560 1440).stored.height = 720 ∧
      ¬ ((uploadHandler "file1.png" 2560 1440).response.width =
            (uploadHandler "file1.png" 2560 1440).stored.width ∧
          (uploadHandler "file1.png" 2560 1440).response.height =
            (uploadHandler "file1.png" 2560 1440).stored.height) := by
  have hw : (uploadHandler "file1.png" 2560 1440).stored.width = 1280 := by
    norm_num [uploadHandler, fitInside]; rfl
  have hh : (uploadHandler "file1.png" 2560 1440).stored.height = 720 := by
    norm_num [uploadHandler, fitInside]; rfl
  have hrw : (uploadHandler "file1.png" 2560 1440).response.width = 2560 := by
    norm_num [uploadHandler]
  have hrh : (uploadHandler "file1.png" 2560 1440).response.height = 1440 := by
    norm_num [uploadHandler]
  refine ⟨hrw, hrh, hw, hh, ?_⟩
  rw [hw, hrw]
  omega

theorem fitInside_le (w h : ℕ) (hw : 0 < w) (hh : 0 < h) :
    (fitInside w h).1 ≤ 1280 ∧ (fitInside w h).2 ≤ 720 ∧
      (fitInside w h).1 ≤ w ∧ (fitInside w h).2 ≤ h := by
  have hw' : (0 : ℚ) < w := by exact_mod_cast hw
  have hh' : (0 : ℚ) < h := by exact_mod_cast hh
  simp only [fitInside]
  set r : ℚ := min (min ((1280 : ℚ) / w) ((720 : ℚ) / h)) 1 with hrdef
  have h1 : (w : ℚ) * r ≤ 1280 := by
    have hr : r ≤ (1280 : ℚ) / w :=
      le_trans (min_le_left _ _) (min_le_left _ _)
    calc (w : ℚ) * r ≤ (w : ℚ) * ((1280 : ℚ) / w) :=
          mul_le_mul_of_nonneg_left hr (le_of_lt hw')
      _ = 1280 := by field_simp
  have h2 : (h : ℚ) * r ≤ 720 := by
    have hr : r ≤ (720 : ℚ) / h :=
      le_trans (min_le_left _ _) (min_le_right _ _)
    calc (h : ℚ) * r ≤ (h : ℚ) * ((720 : ℚ) / h) :=
          mul_le_mul_of_nonneg_left hr (le_of_lt hh')
      _ = 720 := by field_simp
  have h3 : (w : ℚ) * r ≤ w := by
    have hr : r ≤ 1 := min_le_right _ _
    calc (w : ℚ) * r ≤ (w : ℚ) * 1 :=
          mul_le_mul_of_nonneg_left hr (le_of_lt hw')
      _ = w := mul_one _
  have h4 : (h : ℚ) * r ≤ h := by
    have hr : r ≤ 1 := min_le_right _ _
    calc (h : ℚ) * r ≤ (h : ℚ) * 1 :=
          mul_le_mul_of_nonneg_left hr (le_of_lt hh')
      _ = h := mul_one _
  refine ⟨?_, ?_, ?_, ?_⟩
  · rw [Int.toNat_le]
    calc Int.floor ((w : ℚ) * r) ≤ Int.floor ((1280 : ℚ)) := Int.floor_le_floor h1
      _ = 1280 := by norm_num
  · rw [Int.toNat_le]
    calc Int.floor ((h : ℚ) * r) ≤ Int.floor ((720 : ℚ)) := Int.floor_le_floor h2
      _ = 720 := by norm_num
  · rw [Int.toNat_le]
    calc Int.floor ((w : ℚ) * r) ≤ Int.floor ((w : ℚ)) := Int.floor_le_floor h3
      _ = w := Int.floor_natCast w
  · rw [Int.toNat_le]
    calc Int.floor ((h : ℚ) * r) ≤ Int.floor ((h : ℚ)) := Int.floor_le_floor h4
      _ = h := Int.floor_natCast h

/-- C9, amended: every accepted upload is stored fitting within 1280 × 720
and never enlarged, and the response reports the stored filename — but the
dimensions in the response are those of the original image, which differ
from the stored image's dimensions whenever a resize happened (see
`upload_reports_original_dims`). -/
theorem upload_fits_and_reports_original (storedName : String) (w h : ℕ)
    (hw : 0 < w) (hh : 0 < h) :
    (uploadHandler storedName w h).response.width = w ∧
      (uploadHandler storedName w h).response.height = h ∧
      (uploadHandler storedName w h).response.filename =
        (uploadHandler storedName w h).stored.filename ∧
      (uploadHandler storedName w h).stored.width ≤ 1280 ∧
      (uploadHandler storedName w h).stored.height ≤ 720 ∧
      (uploadHandler storedName w h).stored.width ≤ w ∧
      (uploadHandler storedName w h).stored.height ≤ h := by
  unfold uploadHandler
  split
  · obtain ⟨f1, f2, f3, f4⟩ := fitInside_le w h hw hh
    exact ⟨rfl, rfl, rfl, f1, f2, f3, f4⟩
  · rename_i hc
    push_neg at hc
    exact ⟨rfl, rfl, rfl, (show w ≤ 1280 by omega), (show h ≤ 720 by omega),
      le_refl _, le_refl _⟩

/-- Witness for `upload_fits_and_reports_original` on a 2560 × 1440
upload. -/
theorem upload_fits_and_reports_original_witness :
    (uploadHandler "file1.png" 2560 1440).response.width = 2560 ∧
      (uploadHandler "file1.png" 2560 1440).stored.width ≤ 1280 ∧
      (uploadHandler "file1.png" 2560 1440).stored.width ≤ 2560 :=
  ⟨(upload_fits_and_reports_original "file1.png" 2560 1440 (by norm_num)
      (by norm_num)).1,
    (upload_fits_and_reports_original "file1.png" 2560 1440 (by norm_num)
      (by norm_num)).2.2.2.1,
    (upload_fits_and_reports_original "file1.png" 2560 1440 (by norm_num)
      (by norm_num)).2.2.2.2.2.1⟩

end GameAnno
